import Mathlib

/-!
Shallow embedding of the quic-websocket server (tquic-example-c repository).

Bytes are modelled as natural numbers; the byte-level casts of the Rust
source (as u8, as u16, as u64, the bit masks 0x80, 0x7F, 0x0F) are kept
explicitly.  Fallible operations return Option.  Every definition is
translated from the source file named in its doc comment; the few pieces
of the repository that are referenced by the source but missing from it
(the Subscribe, Unsubscribe and ServerPush message variants and the
subscribe and unsubscribe registry methods) are modelled from the
specification and marked as such.
-/

namespace QuicWS

/-- WebSocket opcodes, from websocket.rs (enum WebSocketOpcode). -/
inductive WebSocketOpcode where
  | continuation
  | text
  | binary
  | close
  | ping
  | pong
deriving DecidableEq, Repr

/-- Numeric value of an opcode (the discriminants in websocket.rs: 0x0,
0x1, 0x2, 0x8, 0x9, 0xA). -/
def WebSocketOpcode.toByte : WebSocketOpcode → Nat
  | .continuation => 0x0
  | .text => 0x1
  | .binary => 0x2
  | .close => 0x8
  | .ping => 0x9
  | .pong => 0xA

/-- From u8 conversion in websocket.rs: matches on the low nibble
(value AND 0x0F) and maps every value other than 0x0, 0x1, 0x2, 0x8,
0x9, 0xA to Close (the default arm). -/
def WebSocketOpcode.fromByte (v : Nat) : WebSocketOpcode :=
  match v &&& 0x0F with
  | 0x0 => .continuation
  | 0x1 => .text
  | 0x2 => .binary
  | 0x8 => .close
  | 0x9 => .ping
  | 0xA => .pong
  | _ => .close

/-- WebSocket frame, from websocket.rs (struct WebSocketFrame): fin flag,
opcode, mask flag and payload bytes. -/
structure WebSocketFrame where
  fin : Bool
  opcode : WebSocketOpcode
  mask : Bool
  payload : List Nat
deriving DecidableEq, Repr

/-- Constructor WebSocketFrame::new in websocket.rs: the mask flag is
always false (frames sent by the server are not masked). -/
def WebSocketFrame.new (opcode : WebSocketOpcode) (payload : List Nat)
    (fin : Bool) : WebSocketFrame :=
  { fin := fin, opcode := opcode, mask := false, payload := payload }

/-- Encoder WebSocketFrame::to_bytes in websocket.rs.  Byte 0 is
fin shifted left 7 ORed with the opcode.  Byte 1 is the payload length
if below 126, else 126 followed by the 16-bit big-endian length, else
127 followed by the 64-bit big-endian length.  The payload bytes follow
verbatim.  Note that the source reads neither the mask field nor any
masking key: no mask bit is set in byte 1, no key is appended and the
payload is not XORed.  The byte layout is split into the helpers
shortLenOf (the value of byte 1) and extLenBytesOf (the extended length
bytes); together they are exactly the if and else-if chain of the
source. -/
def shortLenOf (n : Nat) : Nat :=
  if n < 126 then n else if n < 65536 then 126 else 127

/-- The extended length bytes written after byte 1: nothing for a short
length, the 16-bit big-endian length after 126, the 64-bit big-endian
length after 127 (the u16 and u64 big-endian byte sequences of the
source). -/
def extLenBytesOf (n : Nat) : List Nat :=
  if n < 126 then []
  else if n < 65536 then [n / 256, n % 256]
  else [n / 2^56 % 256, n / 2^48 % 256, n / 2^40 % 256,
        n / 2^32 % 256, n / 2^24 % 256, n / 2^16 % 256,
        n / 2^8 % 256, n % 256]

/-- Encoder WebSocketFrame::to_bytes: byte 0 then byte 1 then the
extended length bytes then the payload verbatim (see the comment on
shortLenOf above). -/
def WebSocketFrame.toBytes (f : WebSocketFrame) : List Nat :=
  ((if f.fin then 0x80 else 0x00) ||| f.opcode.toByte)
    :: shortLenOf f.payload.length
    :: extLenBytesOf f.payload.length ++ f.payload

/-- The per-byte XOR loop of websocket.rs (payload byte i XORed with
key at index i mod 4), with an explicit running index. -/
def maskBytesFrom (key : List Nat) : Nat → List Nat → List Nat
  | _, [] => []
  | i, b :: rest => (b ^^^ key.getD (i % 4) 0) :: maskBytesFrom key (i + 1) rest

/-- XOR a payload with a 4-byte masking key, as in websocket.rs. -/
def maskBytes (key : List Nat) (payload : List Nat) : List Nat :=
  maskBytesFrom key 0 payload

/-- Big-endian value of the len bytes of data at indices start to
start + len - 1: the u16::from_be_bytes and u64::from_be_bytes reads of
WebSocketFrame::parse, which are only reached behind a guard that the
buffer holds at least start + len bytes. -/
def readBE (data : List Nat) (start len : Nat) : Nat :=
  ((data.drop start).take len).foldl (fun acc b => acc * 256 + b) 0

/-- Extended-length step of WebSocketFrame::parse in websocket.rs: from
the 7-bit length field, produce the payload length and the cursor after
the length bytes, or none when more data is needed.  len0 is the second
byte AND 0x7F; the cursor starts at 2 (the two header bytes are already
consumed). -/
def parseLen (data : List Nat) (len0 : Nat) : Option (Nat × Nat) :=
  if len0 = 126 then
    if data.length < 2 + 2 then none
    else some (readBE data 2 2, 2 + 2)
  else if len0 = 127 then
    if data.length < 2 + 8 then none
    else some (readBE data 2 8, 2 + 8)
  else some (len0, 2)

/-- Masking-key step of WebSocketFrame::parse in websocket.rs: when the
mask bit is set, read the 4 key bytes at the cursor, or none when more
data is needed. -/
def parseKey (data : List Nat) (mask : Bool) (c1 : Nat) :
    Option (Option (List Nat) × Nat) :=
  if mask then
    if data.length < c1 + 4 then none
    else some (some [data.getD c1 0, data.getD (c1 + 1) 0,
                     data.getD (c1 + 2) 0, data.getD (c1 + 3) 0], c1 + 4)
  else some (none, c1)

/-- Decoder WebSocketFrame::parse in websocket.rs.  Given a possibly
incomplete buffer, returns none when more data is needed, otherwise the
parsed frame together with the number of bytes consumed.  The Rust
signature is Result of Option; no branch of the source ever produces
the error case, so the embedding returns Option directly.  The payload
is unmasked with the key when the mask bit is set. -/
def WebSocketFrame.parse (data : List Nat) :
    Option (WebSocketFrame × Nat) :=
  if data.length < 2 then none
  else
    let b0 := data.getD 0 0
    let b1 := data.getD 1 0
    let fin := (b0 &&& 0x80) != 0
    let opcode := WebSocketOpcode.fromByte b0
    let mask := (b1 &&& 0x80) != 0
    let len0 := b1 &&& 0x7F
    match parseLen data len0 with
    | none => none
    | some (payloadLen, c1) =>
      match parseKey data mask c1 with
      | none => none
      | some (maskKey, c2) =>
        if data.length < c2 + payloadLen then none
        else
          let raw := (data.drop c2).take payloadLen
          let payload :=
            match maskKey with
            | some key => maskBytes key raw
            | none => raw
          some ({ fin := fin, opcode := opcode, mask := mask,
                  payload := payload }, c2 + payloadLen)

/-- Wire bytes of a client-masked frame, the input format exercised by
the tests in websocket.rs: byte 0 carries fin and the opcode, byte 1
carries the mask bit (0x80) ORed with the 7-bit length field, then the
extended length bytes, the 4-byte key, and the payload XORed with the
key. -/
def wireEncodeMasked (fin : Bool) (op : WebSocketOpcode) (key : List Nat)
    (payload : List Nat) : List Nat :=
  ((if fin then 0x80 else 0) + op.toByte)
    :: (0x80 + shortLenOf payload.length)
    :: extLenBytesOf payload.length ++ key ++ maskBytes key payload

/-- Per-frame reaction of the HTTP/3 dispatcher frame loop
(H3WebSocketServer::handle_websocket_messages, identical in h3_server.rs
and h3_websocket_server.rs): the frames sent in reply, the payloads
published to the broadcast channel, and whether the match arm executes a
break statement.  Text frames are echoed and published, Binary frames
echoed, Close answered with an empty Close followed by break, Ping
answered with a Pong carrying the same payload, Pong and every other
opcode only logged. -/
def h3FrameAction (f : WebSocketFrame) :
    List (WebSocketOpcode × List Nat) × List (List Nat) × Bool :=
  match f.opcode with
  | .text => ([(.text, f.payload)], [f.payload], false)
  | .binary => ([(.binary, f.payload)], [], false)
  | .close => ([(.close, [])], [], true)
  | .ping => ([(.pong, f.payload)], [], false)
  | .pong => ([], [], false)
  | .continuation => ([], [], false)

/-- The inner parse loop of handle_websocket_messages: repeatedly parse
a frame from the buffer, drain the consumed bytes and run the frame
action; the break executed on a Close frame leaves this loop with the
unconsumed bytes still in the buffer.  Returns the remaining buffer, the
sends, the bus publications and whether the loop ended by break.  The
fuel argument only bounds the number of iterations: every parsed frame
consumes at least two bytes, so with fuel equal to the buffer length the
model performs exactly the iterations of the source loop. -/
def h3InnerLoop : Nat → List Nat →
    List Nat × List (WebSocketOpcode × List Nat) × List (List Nat) × Bool
  | 0, buffer => (buffer, [], [], false)
  | fuel + 1, buffer =>
    match WebSocketFrame.parse buffer with
    | none => (buffer, [], [], false)
    | some (f, consumed) =>
      let rest := buffer.drop consumed
      let act := h3FrameAction f
      if act.2.2 then (rest, act.1, act.2.1, true)
      else
        let r := h3InnerLoop fuel rest
        (r.1, act.1 ++ r.2.1, act.2.1 ++ r.2.2.1, r.2.2.2)

/-- The outer receive loop of handle_websocket_messages: each element of
chunks is one Ok Some data result of recv_data, appended to the rolling
buffer before the inner parse loop runs; the end of the list is the
Ok None end of stream, which breaks the outer loop.  The break executed
on a Close frame exits only the inner parse loop, so the outer loop
continues with the next chunk and the unconsumed bytes still
buffered. -/
def h3OuterLoop : List (List Nat) → List Nat →
    List (WebSocketOpcode × List Nat) × List (List Nat)
  | [], _buffer => ([], [])
  | chunk :: rest, buffer =>
    let buf := buffer ++ chunk
    let r := h3InnerLoop buf.length buf
    let r2 := h3OuterLoop rest r.1
    (r.2.1 ++ r2.1, r.2.2.1 ++ r2.2)

/-- handle_websocket_messages in full: run the receive loop on the chunk
sequence starting from an empty buffer, then remove the session id from
the connection registry; the removal happens on exit of the outer loop,
whatever caused the exit. -/
def h3Handle (connIds : List Nat) (connId : Nat)
    (chunks : List (List Nat)) :
    (List (WebSocketOpcode × List Nat) × List (List Nat)) × List Nat :=
  (h3OuterLoop chunks [], connIds.filter (fun i => i ≠ connId))

/-- Client id: a Uuid in the source, abstract here. -/
abbrev ClientId := Nat

/-- Client connection state, from client.rs (enum ClientState). -/
inductive ClientState where
  | connecting
  | connected
  | disconnected
deriving DecidableEq, Repr

/-- Client info record, from message.rs (struct ClientInfo). -/
structure ClientInfo where
  id : ClientId
  name : Option String
  connectedAt : Nat
  lastSeen : Nat
deriving DecidableEq, Repr

/-- Message union, from message.rs (enum MessageType).  handler.rs and
server.rs also match on and construct Subscribe, Unsubscribe and
ServerPush variants that message.rs does not declare; those three
variants are modelled from the spec (the section 6 wire variants). -/
inductive MessageType where
  | handshake (clientName : Option String) (protocolVersion : String)
  | handshakeResponse (clientId : Nat) (serverName : String)
      (accepted : Bool) (reason : Option String)
  | text (content : String) (timestamp : Nat)
  | binary (data : List Nat) (timestamp : Nat)
  | broadcast (fromId : Nat) (content : String) (timestamp : Nat)
  | directMessage (fromId : Nat) (toId : Nat) (content : String)
      (timestamp : Nat)
  | ping (timestamp : Nat)
  | pong (timestamp : Nat)
  | listClients
  | clientList (clients : List ClientInfo)
  | close (code : Nat) (reason : String)
  | error (code : Nat) (message : String)
  | subscribe (topics : List String)
  | unsubscribe (topics : List String)
  | serverPush (topic : String) (content : String) (timestamp : Nat)
deriving DecidableEq, Repr

/-- Message frame, from message.rs (struct MessageFrame).  The random
Uuid of MessageFrame::new is irrelevant to every claim and is modelled as
the constant 0. -/
structure MessageFrame where
  id : Nat
  messageType : MessageType
  priority : Nat
  requireAck : Bool
deriving DecidableEq, Repr

/-- MessageFrame::new in message.rs: priority 128, require_ack false. -/
def MessageFrame.new (mt : MessageType) : MessageFrame :=
  { id := 0, messageType := mt, priority := 128, requireAck := false }

/-- Client connection record, from client.rs (struct ClientConnection).
The quinn Connection handle is outside the pure model; sends on it are
recorded as effects.  client.rs declares no subscriptions field, and the
subscribe_topics and unsubscribe_topics registry methods that handler.rs
calls are missing from client.rs; the subscriptions field is modelled
from the spec (section 3: subscriptions is a set of topic strings kept
per session). -/
structure ClientConnection where
  id : ClientId
  name : Option String
  state : ClientState
  connectedAt : Nat
  lastSeen : Nat
  messageCount : Nat
  subscriptions : List String
deriving DecidableEq, Repr

/-- ClientConnection::new in client.rs: state Connecting, both
timestamps set to the current time, zero message count. -/
def ClientConnection.new (id : ClientId) (now : Nat) : ClientConnection :=
  { id := id, name := none, state := .connecting, connectedAt := now,
    lastSeen := now, messageCount := 0, subscriptions := [] }

/-- ClientConnection::update_last_seen in client.rs. -/
def ClientConnection.updateLastSeen (c : ClientConnection) (now : Nat) :
    ClientConnection :=
  { c with lastSeen := now }

/-- ClientConnection::increment_message_count in client.rs. -/
def ClientConnection.incrementMessageCount (c : ClientConnection) :
    ClientConnection :=
  { c with messageCount := c.messageCount + 1 }

/-- Association-list model of HashMap::get in client.rs. -/
def lookupClient : List (ClientId × ClientConnection) → ClientId →
    Option ClientConnection
  | [], _ => none
  | (k, v) :: rest, id => if k = id then some v else lookupClient rest id

/-- HashMap::insert: replace the stored value when the key is present,
otherwise add the pair. -/
def insertClient : List (ClientId × ClientConnection) → ClientId →
    ClientConnection → List (ClientId × ClientConnection)
  | [], id, c => [(id, c)]
  | (k, v) :: rest, id, c =>
      if k = id then (id, c) :: rest else (k, v) :: insertClient rest id c

/-- HashMap::remove. -/
def removeClientEntry : List (ClientId × ClientConnection) → ClientId →
    List (ClientId × ClientConnection)
  | [], _ => []
  | (k, v) :: rest, id =>
      if k = id then rest else (k, v) :: removeClientEntry rest id

/-- HashMap::get_mut followed by a field update: apply f to the stored
record when the key is present, as update_client_state and
set_client_name in client.rs do. -/
def modifyClient (l : List (ClientId × ClientConnection)) (id : ClientId)
    (f : ClientConnection → ClientConnection) :
    List (ClientId × ClientConnection) :=
  l.map fun p => if p.1 = id then (p.1, f p.2) else p

/-- Client manager, from client.rs (struct ClientManager): the guarded
client map and the admission limit.  The broadcast channel is modelled
by recording published frames as effects. -/
structure ClientManager where
  clients : List (ClientId × ClientConnection)
  maxClients : Nat
deriving DecidableEq, Repr

/-- ClientManager::new: empty map. -/
def ClientManager.empty (maxClients : Nat) : ClientManager :=
  { clients := [], maxClients := maxClients }

/-- ClientManager::add_client in client.rs: when the number of stored
clients has reached max_clients, return false without inserting;
otherwise insert a fresh Connecting record for the id and return
true. -/
def ClientManager.addClient (m : ClientManager) (id : ClientId)
    (now : Nat) : ClientManager × Bool :=
  if m.maxClients ≤ m.clients.length then (m, false)
  else ({ m with
          clients := insertClient m.clients id (ClientConnection.new id now) },
        true)

/-- ClientManager::remove_client in client.rs. -/
def ClientManager.removeClient (m : ClientManager) (id : ClientId) :
    ClientManager :=
  { m with clients := removeClientEntry m.clients id }

/-- ClientManager::get_client in client.rs.  The source returns
clients.get(id).cloned(): the caller receives a copy of the record, and
mutating that copy does not change the registry. -/
def ClientManager.getClient (m : ClientManager) (id : ClientId) :
    Option ClientConnection :=
  lookupClient m.clients id

/-- ClientManager::update_client_state in client.rs: set the state and
refresh last_seen when the client is present; always returns Ok. -/
def ClientManager.updateClientState (m : ClientManager) (id : ClientId)
    (st : ClientState) (now : Nat) : ClientManager :=
  let f := fun c => ({ c with state := st } : ClientConnection).updateLastSeen now
  { m with clients := modifyClient m.clients id f }

/-- ClientManager::set_client_name in client.rs: set the name and
refresh last_seen when the client is present; always returns Ok. -/
def ClientManager.setClientName (m : ClientManager) (id : ClientId)
    (n : String) (now : Nat) : ClientManager :=
  let f := fun c => ({ c with name := some n } : ClientConnection).updateLastSeen now
  { m with clients := modifyClient m.clients id f }

/-- ClientManager::send_to_client in client.rs: when the id is present
in the map, send the frame on the stored connection (recorded as a send
effect); when absent, only log a warning.  The state of the target is
not examined, the registry is only read, and the function always
returns Ok. -/
def ClientManager.sendToClient (m : ClientManager) (id : ClientId)
    (frame : MessageFrame) : List (ClientId × MessageFrame) :=
  match lookupClient m.clients id with
  | some _ => [(id, frame)]
  | none => []

/-- ClientManager::broadcast_message in client.rs: iterate all stored
clients; for each whose state is Connected attempt a send (the ok oracle
tells which sends succeed at the I/O level; a failure is only logged and
the iteration continues); count the successes; finally publish the frame
on the broadcast channel whatever the per-client outcomes.  Returns the
success count, the attempted sends in iteration order, and the bus
publication.  broadcastStep is the loop body: skip a client whose state
is not Connected, otherwise record the attempted send and count it when
the I/O succeeds. -/
def broadcastStep (ok : ClientId → Bool) (frame : MessageFrame)
    (acc : Nat × List (ClientId × MessageFrame))
    (p : ClientId × ClientConnection) :
    Nat × List (ClientId × MessageFrame) :=
  if p.2.state = .connected then
    (if ok p.1 then acc.1 + 1 else acc.1, acc.2 ++ [(p.1, frame)])
  else acc

def ClientManager.broadcastMessage (m : ClientManager)
    (ok : ClientId → Bool) (frame : MessageFrame) :
    Nat × List (ClientId × MessageFrame) × List MessageFrame :=
  let r := m.clients.foldl (broadcastStep ok frame) (0, [])
  (r.1, r.2, [frame])

/-- ClientManager::get_all_clients in client.rs, via
ClientConnection::get_info. -/
def ClientManager.getAllClients (m : ClientManager) : List ClientInfo :=
  m.clients.map fun p =>
    { id := p.2.id, name := p.2.name, connectedAt := p.2.connectedAt,
      lastSeen := p.2.lastSeen }

/-- Modelled from the spec: subscribe_topics is called by handler.rs but
not defined in client.rs.  Per the spec (sections 3 and 4.4), it adds
the given topics to the subscription set of the session; modelled as an
order-preserving set union on the stored record. -/
def ClientManager.subscribeTopics (m : ClientManager) (id : ClientId)
    (topics : List String) : ClientManager :=
  { m with clients := modifyClient m.clients id (fun c =>
      let subs := c.subscriptions ++
        topics.filter (fun t => !(c.subscriptions.contains t))
      { c with subscriptions := subs }) }

/-- Modelled from the spec: unsubscribe_topics is called by handler.rs
but not defined in client.rs.  Per the spec it removes the given topics
from the subscription set of the session. -/
def ClientManager.unsubscribeTopics (m : ClientManager) (id : ClientId)
    (topics : List String) : ClientManager :=
  { m with clients := modifyClient m.clients id (fun c =>
      let subs := c.subscriptions.filter (fun t => !(topics.contains t))
      { c with subscriptions := subs }) }

/-- Result of one dispatched message: the registry afterwards, the sends
performed (target id and frame, in order) and the frames published to
the broadcast channel. -/
structure HandlerResult where
  manager : ClientManager
  sends : List (ClientId × MessageFrame)
  bus : List MessageFrame
deriving DecidableEq, Repr

/-- MessageHandler::handle_handshake in handler.rs.  accepted is the
comparison of the offered version with the fixed server version 1.0; on
mismatch the reason string is built from the offered version.  The
response is sent first; only when accepted are the name (when provided)
and the Connected state written to the registry. -/
def handleHandshake (serverName : String) (now : Nat) (m : ClientManager)
    (clientId : ClientId) (clientName : Option String)
    (protocolVersion : String) : HandlerResult :=
  let accepted := protocolVersion == "1.0"
  let reason := if accepted then none
    else some ("Unsupported protocol version: " ++ protocolVersion ++
               ". Expected: 1.0")
  let response := MessageFrame.new
    (.handshakeResponse clientId serverName accepted reason)
  let sends := m.sendToClient clientId response
  if accepted then
    let m1 := match clientName with
      | some n => m.setClientName clientId n now
      | none => m
    let m2 := m1.updateClientState clientId .connected now
    { manager := m2, sends := sends, bus := [] }
  else
    { manager := m, sends := sends, bus := [] }

/-- MessageHandler::handle_text_message in handler.rs: echo with the
Echo: marker. -/
def handleTextMessage (now : Nat) (m : ClientManager) (clientId : ClientId)
    (content : String) : HandlerResult :=
  let response := MessageFrame.new (.text ("Echo: " ++ content) now)
  { manager := m, sends := m.sendToClient clientId response, bus := [] }

/-- MessageHandler::handle_binary_message in handler.rs: echo the
data. -/
def handleBinaryMessage (now : Nat) (m : ClientManager)
    (clientId : ClientId) (data : List Nat) : HandlerResult :=
  let response := MessageFrame.new (.binary data now)
  { manager := m, sends := m.sendToClient clientId response, bus := [] }

/-- MessageHandler::handle_broadcast_message in handler.rs: broadcast a
frame with from rewritten to the sender, then acknowledge the sender
with the success count. -/
def handleBroadcastMessage (ok : ClientId → Bool) (now : Nat)
    (m : ClientManager) (clientId : ClientId) (content : String) :
    HandlerResult :=
  let bframe := MessageFrame.new (.broadcast clientId content now)
  let r := m.broadcastMessage ok bframe
  let ack := MessageFrame.new
    (.text ("Broadcast sent to " ++ toString r.1 ++ " clients") now)
  { manager := m, sends := r.2.1 ++ m.sendToClient clientId ack,
    bus := r.2.2 }

/-- MessageHandler::handle_direct_message in handler.rs: when the target
exists, deliver and acknowledge; otherwise reply with error 1002. -/
def handleDirectMessage (now : Nat) (m : ClientManager) (fromId : ClientId)
    (toId : ClientId) (content : String) : HandlerResult :=
  let mframe := MessageFrame.new (.directMessage fromId toId content now)
  if (m.getClient toId).isSome then
    let s1 := m.sendToClient toId mframe
    let ack := MessageFrame.new (.text "Direct message sent" now)
    { manager := m, sends := s1 ++ m.sendToClient fromId ack, bus := [] }
  else
    { manager := m,
      sends := m.sendToClient fromId
        (MessageFrame.new (.error 1002 "Target client not found")),
      bus := [] }

/-- MessageHandler::handle_ping in handler.rs: reply with a Pong stamped
with the current time (the incoming timestamp is ignored). -/
def handlePing (now : Nat) (m : ClientManager) (clientId : ClientId) :
    HandlerResult :=
  { manager := m,
    sends := m.sendToClient clientId (MessageFrame.new (.pong now)),
    bus := [] }

/-- MessageHandler::handle_list_clients in handler.rs. -/
def handleListClients (m : ClientManager) (clientId : ClientId) :
    HandlerResult :=
  { manager := m,
    sends := m.sendToClient clientId
      (MessageFrame.new (.clientList m.getAllClients)),
    bus := [] }

/-- MessageHandler::handle_close in handler.rs: remove the client from
the registry; nothing is sent. -/
def handleClose (m : ClientManager) (clientId : ClientId) : HandlerResult :=
  { manager := m.removeClient clientId, sends := [], bus := [] }

/-- MessageHandler::handle_subscribe in handler.rs: subscribe the
topics, confirm, then send one ServerPush welcome per requested
topic. -/
def handleSubscribe (now : Nat) (m : ClientManager) (clientId : ClientId)
    (topics : List String) : HandlerResult :=
  let m1 := m.subscribeTopics clientId topics
  let conf := MessageFrame.new
    (.text ("✅ Subscribed to topics: " ++ String.intercalate ", " topics)
      now)
  let q := String.singleton (Char.ofNat 39)
  let welcome := topics.flatMap (fun t =>
    m1.sendToClient clientId (MessageFrame.new
      (.serverPush t ("Welcome to topic " ++ q ++ t ++ q ++
        "! You will receive real-time updates.") now)))
  { manager := m1, sends := m1.sendToClient clientId conf ++ welcome,
    bus := [] }

/-- MessageHandler::handle_unsubscribe in handler.rs. -/
def handleUnsubscribe (now : Nat) (m : ClientManager) (clientId : ClientId)
    (topics : List String) : HandlerResult :=
  let m1 := m.unsubscribeTopics clientId topics
  let conf := MessageFrame.new
    (.text ("✅ Unsubscribed from topics: " ++
      String.intercalate ", " topics) now)
  { manager := m1, sends := m1.sendToClient clientId conf, bus := [] }

/-- MessageHandler::send_error in handler.rs. -/
def sendError (m : ClientManager) (clientId : ClientId) (code : Nat)
    (message : String) : List (ClientId × MessageFrame) :=
  m.sendToClient clientId (MessageFrame.new (.error code message))

/-- MessageHandler::handle_message in handler.rs.  The first step of the
source fetches the client with get_client, which returns a clone, and
calls update_last_seen and increment_message_count on that clone; the
clone is then dropped, so this step leaves the registry unchanged and
the embedding carries the unchanged manager into the dispatch.  The
dispatch matches only on the message type; the session state is never
examined. -/
def handleMessage (ok : ClientId → Bool) (serverName : String) (now : Nat)
    (m : ClientManager) (clientId : ClientId) (frame : MessageFrame) :
    HandlerResult :=
  let _clone := (m.getClient clientId).map
    (fun c => (c.updateLastSeen now).incrementMessageCount)
  match frame.messageType with
  | .handshake clientName pv =>
      handleHandshake serverName now m clientId clientName pv
  | .text content _ => handleTextMessage now m clientId content
  | .binary data _ => handleBinaryMessage now m clientId data
  | .broadcast _ content _ =>
      handleBroadcastMessage ok now m clientId content
  | .directMessage _ toId content _ =>
      handleDirectMessage now m clientId toId content
  | .ping _ => handlePing now m clientId
  | .listClients => handleListClients m clientId
  | .close _ _ => handleClose m clientId
  | .subscribe topics => handleSubscribe now m clientId topics
  | .unsubscribe topics => handleUnsubscribe now m clientId topics
  | _ => { manager := m,
           sends := sendError m clientId 1001 "Unsupported message type",
           bus := [] }

/-- The admission step of QuicWebSocketServer::handle_connection in
server.rs: call add_client; when it returns false, the caller closes the
underlying connection with code 1008 and reason Server full and returns
before any stream is accepted. -/
def handleConnectionAdmission (m : ClientManager) (id : ClientId)
    (now : Nat) : ClientManager × Option (Nat × String) :=
  let r := m.addClient id now
  if r.2 then (r.1, none) else (r.1, some (1008, "Server full"))

/-- Admit a list of ids in order with add_client, failing (none) as soon
as one admission returns false. -/
def admitAll (now : Nat) : List ClientId → ClientManager →
    Option ClientManager
  | [], m => some m
  | id :: rest, m =>
    let r := m.addClient id now
    if r.2 then admitAll now rest r.1 else none

/-! Helper lemmas about the byte-level operations. -/

theorem land_127_eq (v : Nat) : v &&& 127 = v % 128 := by
  have h := Nat.and_pow_two_sub_one_eq_mod v 7
  norm_num at h
  exact h

theorem land_15_eq (v : Nat) : v &&& 15 = v % 16 := by
  have h := Nat.and_pow_two_sub_one_eq_mod v 4
  norm_num at h
  exact h

theorem land_128_eq (v : Nat) : v &&& 128 = v / 128 % 2 * 128 := by
  have h : (128 : Nat) = 2 ^ 7 := by norm_num
  rw [h, Nat.and_two_pow, Nat.testBit_to_div_mod]
  rcases Nat.mod_two_eq_zero_or_one (v / 2 ^ 7) with hb | hb <;>
    norm_num at hb <;> simp [hb]

theorem land_128_of_lt {v : Nat} (h : v < 128) : v &&& 128 = 0 := by
  rw [land_128_eq]
  omega

theorem land_128_of_ge {v : Nat} (h1 : 128 ≤ v) (h2 : v < 256) :
    v &&& 128 = 128 := by
  rw [land_128_eq]
  omega

theorem getD_take_eq {α : Type} (l : List α) (k i : Nat) (d : α)
    (h : i < k) : (l.take k).getD i d = l.getD i d := by
  simp only [List.getD_eq_getElem?_getD, List.getElem?_take_of_lt h]

theorem length_take_eq {α : Type} (l : List α) (k : Nat)
    (h : k ≤ l.length) : (l.take k).length = k := by
  simp only [List.length_take]
  omega

theorem readBE_take (l : List Nat) (k start len : Nat)
    (h : start + len ≤ k) :
    readBE (l.take k) start len = readBE l start len := by
  unfold readBE
  congr 1
  rw [List.drop_take, List.take_take]
  congr 1
  omega

theorem maskBytesFrom_length (key : List Nat) :
    ∀ (i : Nat) (l : List Nat), (maskBytesFrom key i l).length = l.length := by
  intro i l
  induction l generalizing i with
  | nil => rfl
  | cons b rest ih => simp [maskBytesFrom, ih]

theorem maskBytes_length (key l : List Nat) :
    (maskBytes key l).length = l.length :=
  maskBytesFrom_length key 0 l

theorem maskBytesFrom_invol (key : List Nat) :
    ∀ (i : Nat) (l : List Nat),
      maskBytesFrom key i (maskBytesFrom key i l) = l := by
  intro i l
  induction l generalizing i with
  | nil => rfl
  | cons b rest ih =>
    simp only [maskBytesFrom, ih]
    congr 1
    rw [Nat.xor_assoc, Nat.xor_self, Nat.xor_zero]

theorem maskBytes_invol (key l : List Nat) :
    maskBytes key (maskBytes key l) = l :=
  maskBytesFrom_invol key 0 l

/-! Lemmas about the decoder. -/

theorem parse_some_len {data : List Nat} {p : WebSocketFrame × Nat}
    (h : WebSocketFrame.parse data = some p) : 2 ≤ data.length := by
  unfold WebSocketFrame.parse at h
  by_cases h2 : data.length < 2
  · rw [if_pos h2] at h
    exact absurd h (by simp)
  · omega

theorem parseLen_take {data : List Nat} {len0 n c1 k : Nat}
    (h : parseLen data len0 = some (n, c1)) (hk : k ≤ data.length)
    (hk2 : 2 ≤ k) :
    parseLen (data.take k) len0 = if k < c1 then none else some (n, c1) := by
  have hlen := length_take_eq data k hk
  unfold parseLen at h ⊢
  by_cases h126 : len0 = 126
  · rw [if_pos h126] at h ⊢
    by_cases hd : data.length < 2 + 2
    · rw [if_pos hd] at h
      exact absurd h (by simp)
    · rw [if_neg hd] at h
      obtain ⟨hn, hc⟩ := Prod.mk.injEq .. ▸ Option.some.inj h
      by_cases hk4 : k < 2 + 2
      · rw [if_pos (by omega), if_pos (by omega)]
      · rw [if_neg (by omega), if_neg (by omega),
            readBE_take data k 2 2 (by omega), hn, hc]
  · by_cases h127 : len0 = 127
    · rw [if_neg h126, if_pos h127] at h ⊢
      by_cases hd : data.length < 2 + 8
      · rw [if_pos hd] at h
        exact absurd h (by simp)
      · rw [if_neg hd] at h
        obtain ⟨hn, hc⟩ := Prod.mk.injEq .. ▸ Option.some.inj h
        by_cases hk10 : k < 2 + 8
        · rw [if_pos (by omega), if_pos (by omega)]
        · rw [if_neg (by omega), if_neg (by omega),
              readBE_take data k 2 8 (by omega), hn, hc]
    · rw [if_neg h126, if_neg h127] at h ⊢
      obtain ⟨hn, hc⟩ := Prod.mk.injEq .. ▸ Option.some.inj h
      rw [if_neg (by omega), hn, hc]

theorem parseKey_take {data : List Nat} {mask : Bool}
    {mk : Option (List Nat)} {c1 c2 k : Nat}
    (h : parseKey data mask c1 = some (mk, c2)) (hk : k ≤ data.length)
    (hc1 : c1 ≤ k) :
    parseKey (data.take k) mask c1 = if k < c2 then none else some (mk, c2) := by
  have hlen := length_take_eq data k hk
  unfold parseKey at h ⊢
  cases mask with
  | false =>
    simp only [Bool.false_eq_true, if_false] at h ⊢
    obtain ⟨hm, hc⟩ := Prod.mk.injEq .. ▸ Option.some.inj h
    rw [if_neg (by omega), hm, hc]
  | true =>
    simp only [if_true] at h ⊢
    by_cases hd : data.length < c1 + 4
    · rw [if_pos hd] at h
      exact absurd h (by simp)
    · rw [if_neg hd] at h
      obtain ⟨hm, hc⟩ := Prod.mk.injEq .. ▸ Option.some.inj h
      by_cases hk4 : k < c1 + 4
      · rw [if_pos (by omega), if_pos (by omega)]
      · rw [if_neg (by omega), if_neg (by omega),
            getD_take_eq data k c1 0 (by omega),
            getD_take_eq data k (c1 + 1) 0 (by omega),
            getD_take_eq data k (c1 + 2) 0 (by omega),
            getD_take_eq data k (c1 + 3) 0 (by omega), hm, hc]

theorem toByte_lt (op : WebSocketOpcode) : op.toByte < 16 := by
  cases op <;> decide

theorem finFlag_eq (fin : Bool) (t : Nat) (ht : t < 128) :
    ((((if fin then 128 else 0) + t) &&& 128) != 0) = fin := by
  cases fin
  · rw [if_neg (by simp), Nat.zero_add, land_128_of_lt ht]
    rfl
  · rw [if_pos rfl, land_128_of_ge (by omega) (by omega)]
    rfl

theorem fromByte_finBit (fin : Bool) (op : WebSocketOpcode) :
    WebSocketOpcode.fromByte ((if fin then 128 else 0) + op.toByte) = op := by
  cases fin <;> cases op <;> decide

theorem lor_finBit (fin : Bool) (op : WebSocketOpcode) :
    ((if fin then 128 else 0) ||| op.toByte) =
      (if fin then 128 else 0) + op.toByte := by
  cases fin <;> cases op <;> decide

theorem masked_b1_flag {s : Nat} (hs : s < 128) :
    (((128 + s) &&& 128) != 0) = true := by
  rw [land_128_of_ge (by omega) (by omega)]
  rfl

theorem masked_b1_len0 {s : Nat} (hs : s < 128) : (128 + s) &&& 127 = s := by
  rw [land_127_eq]
  omega

theorem unmasked_b1_flag {s : Nat} (hs : s < 128) :
    ((s &&& 128) != 0) = false := by
  rw [land_128_of_lt hs]
  rfl

theorem unmasked_b1_len0 {s : Nat} (hs : s < 128) : s &&& 127 = s := by
  rw [land_127_eq]
  omega

theorem shortLenOf_lt (n : Nat) : shortLenOf n < 128 := by
  unfold shortLenOf
  split_ifs <;> omega

theorem list_len_four {α : Type} {l : List α} (h : l.length = 4) :
    ∃ a b c d, l = [a, b, c, d] := by
  rcases l with _ | ⟨a, _ | ⟨b, _ | ⟨c, _ | ⟨d, _ | ⟨e, t⟩⟩⟩⟩⟩ <;>
    simp only [List.length_cons, List.length_nil] at h <;> try omega
  exact ⟨a, b, c, d, rfl⟩

theorem getD_cons0 (a : Nat) (l : List Nat) : (a :: l).getD 0 0 = a := rfl

theorem getD_cons1 (a b : Nat) (l : List Nat) :
    (a :: b :: l).getD 1 0 = b := rfl

theorem getD_cons2 (a b c : Nat) (l : List Nat) :
    (a :: b :: c :: l).getD 2 0 = c := rfl

theorem getD_cons3 (a b c d : Nat) (l : List Nat) :
    (a :: b :: c :: d :: l).getD 3 0 = d := rfl

theorem getD_cons4 (a b c d e : Nat) (l : List Nat) :
    (a :: b :: c :: d :: e :: l).getD 4 0 = e := rfl

theorem getD_cons5 (a b c d e f : Nat) (l : List Nat) :
    (a :: b :: c :: d :: e :: f :: l).getD 5 0 = f := rfl

/-- Parse of a masked frame with a short (7-bit) length field: header
byte, mask-plus-length byte, the four key bytes, then the masked
payload M. -/
theorem parse_masked_short (fin : Bool) (op : WebSocketOpcode)
    (k0 k1 k2 k3 : Nat) (M : List Nat) (n : Nat)
    (hM : M.length = n) (h126 : n < 126) :
    WebSocketFrame.parse
      (((if fin then 128 else 0) + op.toByte) :: (128 + n)
        :: k0 :: k1 :: k2 :: k3 :: M) =
      some ({ fin := fin, opcode := op, mask := true,
              payload := maskBytes [k0, k1, k2, k3] M }, 6 + n) := by
  have h128 : n < 128 := by omega
  have hlen : (((if fin then 128 else 0) + op.toByte) :: (128 + n)
      :: k0 :: k1 :: k2 :: k3 :: M).length = 6 + n := by
    simp only [List.length_cons, hM]
    omega
  unfold WebSocketFrame.parse
  rw [hlen, if_neg (by omega)]
  dsimp only
  rw [getD_cons0, getD_cons1,
      finFlag_eq fin op.toByte (by have := toByte_lt op; omega),
      fromByte_finBit fin op,
      masked_b1_flag h128, masked_b1_len0 h128]
  unfold parseLen
  rw [if_neg (by omega), if_neg (by omega)]
  dsimp only
  unfold parseKey
  rw [if_pos rfl, hlen, if_neg (by omega)]
  dsimp only
  rw [getD_cons2, getD_cons3, getD_cons4, getD_cons5,
      if_neg (by omega)]
  rw [show List.drop (2 + 4) (((if fin then 128 else 0) + op.toByte)
        :: (128 + n) :: k0 :: k1 :: k2 :: k3 :: M) = M from rfl,
      ← hM, List.take_length]

theorem getD_cons6 (a b c d e f g : Nat) (l : List Nat) :
    (a :: b :: c :: d :: e :: f :: g :: l).getD 6 0 = g := rfl

theorem getD_cons7 (a b c d e f g h : Nat) (l : List Nat) :
    (a :: b :: c :: d :: e :: f :: g :: h :: l).getD 7 0 = h := rfl

theorem getD_cons10 (a b c d e f g h i j v : Nat) (l : List Nat) :
    (a :: b :: c :: d :: e :: f :: g :: h :: i :: j :: v :: l).getD 10 0 =
      v := rfl

theorem getD_cons11 (a b c d e f g h i j v w : Nat) (l : List Nat) :
    (a :: b :: c :: d :: e :: f :: g :: h :: i :: j :: v :: w :: l).getD 11 0
      = w := rfl

theorem getD_cons12 (a b c d e f g h i j v w x : Nat) (l : List Nat) :
    (a :: b :: c :: d :: e :: f :: g :: h :: i :: j :: v :: w :: x ::
      l).getD 12 0 = x := rfl

theorem getD_cons13 (a b c d e f g h i j v w x y : Nat) (l : List Nat) :
    (a :: b :: c :: d :: e :: f :: g :: h :: i :: j :: v :: w :: x :: y ::
      l).getD 13 0 = y := rfl

/-- Parse of a masked frame with a 16-bit extended length field. -/
theorem parse_masked_mid (fin : Bool) (op : WebSocketOpcode)
    (k0 k1 k2 k3 : Nat) (M : List Nat) (n : Nat)
    (hM : M.length = n) (h126 : 126 ≤ n) (h65536 : n < 65536) :
    WebSocketFrame.parse
      (((if fin then 128 else 0) + op.toByte) :: (128 + 126)
        :: (n / 256) :: (n % 256) :: k0 :: k1 :: k2 :: k3 :: M) =
      some ({ fin := fin, opcode := op, mask := true,
              payload := maskBytes [k0, k1, k2, k3] M }, 8 + n) := by
  have hlen : (((if fin then 128 else 0) + op.toByte) :: (128 + 126)
      :: (n / 256) :: (n % 256) :: k0 :: k1 :: k2 :: k3 :: M).length =
      8 + n := by
    simp only [List.length_cons, hM]
    omega
  have hRead : readBE (((if fin then 128 else 0) + op.toByte) :: (128 + 126)
      :: (n / 256) :: (n % 256) :: k0 :: k1 :: k2 :: k3 :: M) 2 2 = n := by
    unfold readBE
    rw [show (List.drop 2 (((if fin then 128 else 0) + op.toByte)
        :: (128 + 126) :: (n / 256) :: (n % 256)
        :: k0 :: k1 :: k2 :: k3 :: M)).take 2 = [n / 256, n % 256] from rfl]
    simp only [List.foldl]
    omega
  unfold WebSocketFrame.parse
  rw [hlen, if_neg (by omega)]
  dsimp only
  rw [getD_cons0, getD_cons1,
      finFlag_eq fin op.toByte (by have := toByte_lt op; omega),
      fromByte_finBit fin op,
      masked_b1_flag (by omega : (126 : Nat) < 128),
      masked_b1_len0 (by omega : (126 : Nat) < 128)]
  unfold parseLen
  rw [if_pos rfl, hlen, if_neg (by omega), hRead]
  dsimp only
  unfold parseKey
  rw [if_pos rfl, hlen, if_neg (by omega)]
  dsimp only
  rw [getD_cons4, getD_cons5, getD_cons6, getD_cons7,
      if_neg (by omega)]
  rw [show List.drop (2 + 2 + 4) (((if fin then 128 else 0) + op.toByte)
        :: (128 + 126) :: (n / 256) :: (n % 256)
        :: k0 :: k1 :: k2 :: k3 :: M) = M from rfl,
      ← hM, List.take_length]

/-- Parse of a masked frame with a 64-bit extended length field. -/
theorem parse_masked_long (fin : Bool) (op : WebSocketOpcode)
    (k0 k1 k2 k3 : Nat) (M : List Nat) (n : Nat)
    (hM : M.length = n) (h65536 : 65536 ≤ n) (hn : n < 2 ^ 64) :
    WebSocketFrame.parse
      (((if fin then 128 else 0) + op.toByte) :: (128 + 127)
        :: (n / 2^56 % 256) :: (n / 2^48 % 256) :: (n / 2^40 % 256)
        :: (n / 2^32 % 256) :: (n / 2^24 % 256) :: (n / 2^16 % 256)
        :: (n / 2^8 % 256) :: (n % 256)
        :: k0 :: k1 :: k2 :: k3 :: M) =
      some ({ fin := fin, opcode := op, mask := true,
              payload := maskBytes [k0, k1, k2, k3] M }, 14 + n) := by
  have hlen : (((if fin then 128 else 0) + op.toByte) :: (128 + 127)
      :: (n / 2^56 % 256) :: (n / 2^48 % 256) :: (n / 2^40 % 256)
      :: (n / 2^32 % 256) :: (n / 2^24 % 256) :: (n / 2^16 % 256)
      :: (n / 2^8 % 256) :: (n % 256)
      :: k0 :: k1 :: k2 :: k3 :: M).length = 14 + n := by
    simp only [List.length_cons, hM]
    omega
  have hRead : readBE (((if fin then 128 else 0) + op.toByte) :: (128 + 127)
      :: (n / 2^56 % 256) :: (n / 2^48 % 256) :: (n / 2^40 % 256)
      :: (n / 2^32 % 256) :: (n / 2^24 % 256) :: (n / 2^16 % 256)
      :: (n / 2^8 % 256) :: (n % 256)
      :: k0 :: k1 :: k2 :: k3 :: M) 2 8 = n := by
    unfold readBE
    rw [show (List.drop 2 (((if fin then 128 else 0) + op.toByte)
        :: (128 + 127)
        :: (n / 2^56 % 256) :: (n / 2^48 % 256) :: (n / 2^40 % 256)
        :: (n / 2^32 % 256) :: (n / 2^24 % 256) :: (n / 2^16 % 256)
        :: (n / 2^8 % 256) :: (n % 256)
        :: k0 :: k1 :: k2 :: k3 :: M)).take 8 =
        [n / 2^56 % 256, n / 2^48 % 256, n / 2^40 % 256, n / 2^32 % 256,
         n / 2^24 % 256, n / 2^16 % 256, n / 2^8 % 256, n % 256] from rfl]
    simp only [List.foldl]
    omega
  unfold WebSocketFrame.parse
  rw [hlen, if_neg (by omega)]
  dsimp only
  rw [getD_cons0, getD_cons1,
      finFlag_eq fin op.toByte (by have := toByte_lt op; omega),
      fromByte_finBit fin op,
      masked_b1_flag (by omega : (127 : Nat) < 128),
      masked_b1_len0 (by omega : (127 : Nat) < 128)]
  unfold parseLen
  rw [if_neg (by omega), if_pos rfl, hlen, if_neg (by omega), hRead]
  dsimp only
  unfold parseKey
  rw [if_pos rfl, hlen, if_neg (by omega)]
  dsimp only
  rw [getD_cons10, getD_cons11, getD_cons12, getD_cons13,
      if_neg (by omega)]
  rw [show List.drop (2 + 8 + 4) (((if fin then 128 else 0) + op.toByte)
        :: (128 + 127)
        :: (n / 2^56 % 256) :: (n / 2^48 % 256) :: (n / 2^40 % 256)
        :: (n / 2^32 % 256) :: (n / 2^24 % 256) :: (n / 2^16 % 256)
        :: (n / 2^8 % 256) :: (n % 256)
        :: k0 :: k1 :: k2 :: k3 :: M) = M from rfl,
      ← hM, List.take_length]

/-- Parse of an unmasked frame with a short (7-bit) length field. -/
theorem parse_unmasked_short (fin : Bool) (op : WebSocketOpcode)
    (P : List Nat) (n : Nat) (hP : P.length = n) (h126 : n < 126) :
    WebSocketFrame.parse
      (((if fin then 128 else 0) + op.toByte) :: n :: P) =
      some ({ fin := fin, opcode := op, mask := false, payload := P },
            2 + n) := by
  have hlen : (((if fin then 128 else 0) + op.toByte) :: n :: P).length =
      2 + n := by
    simp only [List.length_cons, hP]
    omega
  unfold WebSocketFrame.parse
  rw [hlen, if_neg (by omega)]
  dsimp only
  rw [getD_cons0, getD_cons1,
      finFlag_eq fin op.toByte (by have := toByte_lt op; omega),
      fromByte_finBit fin op,
      unmasked_b1_flag (by omega : n < 128),
      unmasked_b1_len0 (by omega : n < 128)]
  unfold parseLen
  rw [if_neg (by omega), if_neg (by omega)]
  dsimp only
  unfold parseKey
  rw [if_neg (by simp)]
  dsimp only
  rw [if_neg (by omega)]
  rw [show List.drop 2 (((if fin then 128 else 0) + op.toByte)
        :: n :: P) = P from rfl,
      ← hP, List.take_length]

/-- Parse of an unmasked frame with a 16-bit extended length field. -/
theorem parse_unmasked_mid (fin : Bool) (op : WebSocketOpcode)
    (P : List Nat) (n : Nat) (hP : P.length = n) (h126 : 126 ≤ n)
    (h65536 : n < 65536) :
    WebSocketFrame.parse
      (((if fin then 128 else 0) + op.toByte) :: 126
        :: (n / 256) :: (n % 256) :: P) =
      some ({ fin := fin, opcode := op, mask := false, payload := P },
            4 + n) := by
  have hlen : (((if fin then 128 else 0) + op.toByte) :: 126
      :: (n / 256) :: (n % 256) :: P).length = 4 + n := by
    simp only [List.length_cons, hP]
    omega
  have hRead : readBE (((if fin then 128 else 0) + op.toByte) :: 126
      :: (n / 256) :: (n % 256) :: P) 2 2 = n := by
    unfold readBE
    rw [show (List.drop 2 (((if fin then 128 else 0) + op.toByte) :: 126
        :: (n / 256) :: (n % 256) :: P)).take 2 =
        [n / 256, n % 256] from rfl]
    simp only [List.foldl]
    omega
  unfold WebSocketFrame.parse
  rw [hlen, if_neg (by omega)]
  dsimp only
  rw [getD_cons0, getD_cons1,
      finFlag_eq fin op.toByte (by have := toByte_lt op; omega),
      fromByte_finBit fin op,
      unmasked_b1_flag (by omega : (126 : Nat) < 128),
      unmasked_b1_len0 (by omega : (126 : Nat) < 128)]
  unfold parseLen
  rw [if_pos rfl, hlen, if_neg (by omega), hRead]
  dsimp only
  unfold parseKey
  rw [if_neg (by simp)]
  dsimp only
  rw [if_neg (by omega)]
  rw [show List.drop (2 + 2) (((if fin then 128 else 0) + op.toByte)
        :: 126 :: (n / 256) :: (n % 256) :: P) = P from rfl,
      ← hP, List.take_length]

/-- Parse of an unmasked frame with a 64-bit extended length field. -/
theorem parse_unmasked_long (fin : Bool) (op : WebSocketOpcode)
    (P : List Nat) (n : Nat) (hP : P.length = n) (h65536 : 65536 ≤ n)
    (hn : n < 2 ^ 64) :
    WebSocketFrame.parse
      (((if fin then 128 else 0) + op.toByte) :: 127
        :: (n / 2^56 % 256) :: (n / 2^48 % 256) :: (n / 2^40 % 256)
        :: (n / 2^32 % 256) :: (n / 2^24 % 256) :: (n / 2^16 % 256)
        :: (n / 2^8 % 256) :: (n % 256) :: P) =
      some ({ fin := fin, opcode := op, mask := false, payload := P },
            10 + n) := by
  have hlen : (((if fin then 128 else 0) + op.toByte) :: 127
      :: (n / 2^56 % 256) :: (n / 2^48 % 256) :: (n / 2^40 % 256)
      :: (n / 2^32 % 256) :: (n / 2^24 % 256) :: (n / 2^16 % 256)
      :: (n / 2^8 % 256) :: (n % 256) :: P).length = 10 + n := by
    simp only [List.length_cons, hP]
    omega
  have hRead : readBE (((if fin then 128 else 0) + op.toByte) :: 127
      :: (n / 2^56 % 256) :: (n / 2^48 % 256) :: (n / 2^40 % 256)
      :: (n / 2^32 % 256) :: (n / 2^24 % 256) :: (n / 2^16 % 256)
      :: (n / 2^8 % 256) :: (n % 256) :: P) 2 8 = n := by
    unfold readBE
    rw [show (List.drop 2 (((if fin then 128 else 0) + op.toByte) :: 127
        :: (n / 2^56 % 256) :: (n / 2^48 % 256) :: (n / 2^40 % 256)
        :: (n / 2^32 % 256) :: (n / 2^24 % 256) :: (n / 2^16 % 256)
        :: (n / 2^8 % 256) :: (n % 256) :: P)).take 8 =
        [n / 2^56 % 256, n / 2^48 % 256, n / 2^40 % 256, n / 2^32 % 256,
         n / 2^24 % 256, n / 2^16 % 256, n / 2^8 % 256, n % 256] from rfl]
    simp only [List.foldl]
    omega
  unfold WebSocketFrame.parse
  rw [hlen, if_neg (by omega)]
  dsimp only
  rw [getD_cons0, getD_cons1,
      finFlag_eq fin op.toByte (by have := toByte_lt op; omega),
      fromByte_finBit fin op,
      unmasked_b1_flag (by omega : (127 : Nat) < 128),
      unmasked_b1_len0 (by omega : (127 : Nat) < 128)]
  unfold parseLen
  rw [if_neg (by omega), if_pos rfl, hlen, if_neg (by omega), hRead]
  dsimp only
  unfold parseKey
  rw [if_neg (by simp)]
  dsimp only
  rw [if_neg (by omega)]
  rw [show List.drop (2 + 8) (((if fin then 128 else 0) + op.toByte)
        :: 127
        :: (n / 2^56 % 256) :: (n / 2^48 % 256) :: (n / 2^40 % 256)
        :: (n / 2^32 % 256) :: (n / 2^24 % 256) :: (n / 2^16 % 256)
        :: (n / 2^8 % 256) :: (n % 256) :: P) = P from rfl,
      ← hP, List.take_length]

/-- The decoder inverts the masked wire form: the frame is recovered
with the payload unmasked and the whole buffer consumed. -/
theorem parse_wireEncodeMasked (fin : Bool) (op : WebSocketOpcode)
    (key payload : List Nat) (hkey : key.length = 4)
    (hn : payload.length < 2 ^ 64) :
    WebSocketFrame.parse (wireEncodeMasked fin op key payload) =
      some ({ fin := fin, opcode := op, mask := true, payload := payload },
            (wireEncodeMasked fin op key payload).length) := by
  obtain ⟨k0, k1, k2, k3, rfl⟩ := list_len_four hkey
  have hM : (maskBytes [k0, k1, k2, k3] payload).length = payload.length :=
    maskBytes_length _ _
  have hInv : maskBytes [k0, k1, k2, k3]
      (maskBytes [k0, k1, k2, k3] payload) = payload :=
    maskBytes_invol _ _
  by_cases h126 : payload.length < 126
  · have hs : shortLenOf payload.length = payload.length := by
      unfold shortLenOf
      rw [if_pos h126]
    have he : extLenBytesOf payload.length = [] := by
      unfold extLenBytesOf
      rw [if_pos h126]
    have hshape : wireEncodeMasked fin op [k0, k1, k2, k3] payload =
        ((if fin then 128 else 0) + op.toByte) :: (128 + payload.length)
          :: k0 :: k1 :: k2 :: k3 :: maskBytes [k0, k1, k2, k3] payload := by
      unfold wireEncodeMasked
      rw [hs, he]
      simp
    rw [hshape]
    rw [show (((if fin then 128 else 0) + op.toByte)
        :: (128 + payload.length) :: k0 :: k1 :: k2 :: k3
        :: maskBytes [k0, k1, k2, k3] payload).length =
        6 + payload.length from by simp only [List.length_cons, hM]; omega]
    rw [parse_masked_short fin op k0 k1 k2 k3 _ _ hM h126, hInv]
  · by_cases h65536 : payload.length < 65536
    · have hs : shortLenOf payload.length = 126 := by
        unfold shortLenOf
        rw [if_neg h126, if_pos h65536]
      have he : extLenBytesOf payload.length =
          [payload.length / 256, payload.length % 256] := by
        unfold extLenBytesOf
        rw [if_neg h126, if_pos h65536]
      have hshape : wireEncodeMasked fin op [k0, k1, k2, k3] payload =
          ((if fin then 128 else 0) + op.toByte) :: (128 + 126)
            :: (payload.length / 256) :: (payload.length % 256)
            :: k0 :: k1 :: k2 :: k3
            :: maskBytes [k0, k1, k2, k3] payload := by
        unfold wireEncodeMasked
        rw [hs, he]
        simp
      rw [hshape]
      rw [show (((if fin then 128 else 0) + op.toByte) :: (128 + 126)
          :: (payload.length / 256) :: (payload.length % 256)
          :: k0 :: k1 :: k2 :: k3
          :: maskBytes [k0, k1, k2, k3] payload).length =
          8 + payload.length from by simp only [List.length_cons, hM]; omega]
      rw [parse_masked_mid fin op k0 k1 k2 k3 _ _ hM (by omega) h65536, hInv]
    · have hs : shortLenOf payload.length = 127 := by
        unfold shortLenOf
        rw [if_neg h126, if_neg h65536]
      have he : extLenBytesOf payload.length =
          [payload.length / 2^56 % 256, payload.length / 2^48 % 256,
           payload.length / 2^40 % 256, payload.length / 2^32 % 256,
           payload.length / 2^24 % 256, payload.length / 2^16 % 256,
           payload.length / 2^8 % 256, payload.length % 256] := by
        unfold extLenBytesOf
        rw [if_neg h126, if_neg h65536]
      have hshape : wireEncodeMasked fin op [k0, k1, k2, k3] payload =
          ((if fin then 128 else 0) + op.toByte) :: (128 + 127)
            :: (payload.length / 2^56 % 256) :: (payload.length / 2^48 % 256)
            :: (payload.length / 2^40 % 256) :: (payload.length / 2^32 % 256)
            :: (payload.length / 2^24 % 256) :: (payload.length / 2^16 % 256)
            :: (payload.length / 2^8 % 256) :: (payload.length % 256)
            :: k0 :: k1 :: k2 :: k3
            :: maskBytes [k0, k1, k2, k3] payload := by
        unfold wireEncodeMasked
        rw [hs, he]
        simp
      rw [hshape]
      rw [show (((if fin then 128 else 0) + op.toByte) :: (128 + 127)
          :: (payload.length / 2^56 % 256) :: (payload.length / 2^48 % 256)
          :: (payload.length / 2^40 % 256) :: (payload.length / 2^32 % 256)
          :: (payload.length / 2^24 % 256) :: (payload.length / 2^16 % 256)
          :: (payload.length / 2^8 % 256) :: (payload.length % 256)
          :: k0 :: k1 :: k2 :: k3
          :: maskBytes [k0, k1, k2, k3] payload).length =
          14 + payload.length from by
            simp only [List.length_cons, hM]; omega]
      rw [parse_masked_long fin op k0 k1 k2 k3 _ _ hM (by omega) hn, hInv]

/-- The decoder inverts the encoder to_bytes: the frame is recovered
with mask false and the whole buffer consumed. -/
theorem parse_toBytes (f : WebSocketFrame)
    (hn : f.payload.length < 2 ^ 64) :
    WebSocketFrame.parse f.toBytes =
      some ({ fin := f.fin, opcode := f.opcode, mask := false,
              payload := f.payload }, f.toBytes.length) := by
  by_cases h126 : f.payload.length < 126
  · have hshape : f.toBytes =
        ((if f.fin then 128 else 0) + f.opcode.toByte)
          :: f.payload.length :: f.payload := by
      unfold WebSocketFrame.toBytes
      rw [lor_finBit, show shortLenOf f.payload.length = f.payload.length
            from by unfold shortLenOf; rw [if_pos h126],
          show extLenBytesOf f.payload.length = [] from by
            unfold extLenBytesOf; rw [if_pos h126]]
      simp
    rw [hshape]
    rw [show (((if f.fin then 128 else 0) + f.opcode.toByte)
        :: f.payload.length :: f.payload).length =
        2 + f.payload.length from by simp only [List.length_cons]; omega]
    rw [parse_unmasked_short f.fin f.opcode f.payload _ rfl h126]
  · by_cases h65536 : f.payload.length < 65536
    · have hshape : f.toBytes =
          ((if f.fin then 128 else 0) + f.opcode.toByte) :: 126
            :: (f.payload.length / 256) :: (f.payload.length % 256)
            :: f.payload := by
        unfold WebSocketFrame.toBytes
        rw [lor_finBit, show shortLenOf f.payload.length = 126 from by
              unfold shortLenOf; rw [if_neg h126, if_pos h65536],
            show extLenBytesOf f.payload.length =
              [f.payload.length / 256, f.payload.length % 256] from by
              unfold extLenBytesOf; rw [if_neg h126, if_pos h65536]]
        simp
      rw [hshape]
      rw [show (((if f.fin then 128 else 0) + f.opcode.toByte) :: 126
          :: (f.payload.length / 256) :: (f.payload.length % 256)
          :: f.payload).length = 4 + f.payload.length from by
            simp only [List.length_cons]; omega]
      rw [parse_unmasked_mid f.fin f.opcode f.payload _ rfl (by omega)
            h65536]
    · have hshape : f.toBytes =
          ((if f.fin then 128 else 0) + f.opcode.toByte) :: 127
            :: (f.payload.length / 2^56 % 256)
            :: (f.payload.length / 2^48 % 256)
            :: (f.payload.length / 2^40 % 256)
            :: (f.payload.length / 2^32 % 256)
            :: (f.payload.length / 2^24 % 256)
            :: (f.payload.length / 2^16 % 256)
            :: (f.payload.length / 2^8 % 256)
            :: (f.payload.length % 256) :: f.payload := by
        unfold WebSocketFrame.toBytes
        rw [lor_finBit, show shortLenOf f.payload.length = 127 from by
              unfold shortLenOf; rw [if_neg h126, if_neg h65536],
            show extLenBytesOf f.payload.length =
              [f.payload.length / 2^56 % 256, f.payload.length / 2^48 % 256,
               f.payload.length / 2^40 % 256, f.payload.length / 2^32 % 256,
               f.payload.length / 2^24 % 256, f.payload.length / 2^16 % 256,
               f.payload.length / 2^8 % 256, f.payload.length % 256] from by
              unfold extLenBytesOf; rw [if_neg h126, if_neg h65536]]
        simp
      rw [hshape]
      rw [show (((if f.fin then 128 else 0) + f.opcode.toByte) :: 127
          :: (f.payload.length / 2^56 % 256)
          :: (f.payload.length / 2^48 % 256)
          :: (f.payload.length / 2^40 % 256)
          :: (f.payload.length / 2^32 % 256)
          :: (f.payload.length / 2^24 % 256)
          :: (f.payload.length / 2^16 % 256)
          :: (f.payload.length / 2^8 % 256)
          :: (f.payload.length % 256) :: f.payload).length =
          10 + f.payload.length from by simp only [List.length_cons]; omega]
      rw [parse_unmasked_long f.fin f.opcode f.payload _ rfl (by omega) hn]

/-- A buffer that parses completely (the consumed count is the whole
buffer length) parses to the need-more-data result on every strict
prefix. -/
theorem parse_take_of_full (data : List Nat) (f : WebSocketFrame)
    (hfull : WebSocketFrame.parse data = some (f, data.length)) :
    ∀ k, k < data.length → WebSocketFrame.parse (data.take k) = none := by
  intro k hk
  have h2 : ¬ data.length < 2 := by
    have := parse_some_len hfull
    omega
  by_cases hk2 : k < 2
  · unfold WebSocketFrame.parse
    rw [if_pos]
    simp only [List.length_take]
    omega
  · have hkle : k ≤ data.length := by omega
    have hlen := length_take_eq data k hkle
    have g0 : (data.take k).getD 0 0 = data.getD 0 0 :=
      getD_take_eq data k 0 0 (by omega)
    have g1 : (data.take k).getD 1 0 = data.getD 1 0 :=
      getD_take_eq data k 1 0 (by omega)
    unfold WebSocketFrame.parse at hfull ⊢
    rw [if_neg h2] at hfull
    rw [if_neg (by omega)]
    dsimp only at hfull ⊢
    rw [g0, g1]
    cases hL : parseLen data (data.getD 1 0 &&& 127) with
    | none => rw [hL] at hfull; exact absurd hfull (by simp)
    | some nc =>
      obtain ⟨n, c1⟩ := nc
      rw [hL] at hfull
      dsimp only at hfull
      rw [parseLen_take hL hkle (by omega)]
      by_cases hkc1 : k < c1
      · rw [if_pos hkc1]
      · rw [if_neg hkc1]
        dsimp only
        cases hK : parseKey data ((data.getD 1 0 &&& 128) != 0) c1 with
        | none => rw [hK] at hfull; exact absurd hfull (by simp)
        | some mc =>
          obtain ⟨mk, c2⟩ := mc
          rw [hK] at hfull
          dsimp only at hfull
          rw [parseKey_take hK hkle (by omega)]
          by_cases hkc2 : k < c2
          · rw [if_pos hkc2]
          · rw [if_neg hkc2]
            dsimp only
            by_cases hfin : data.length < c2 + n
            · rw [if_pos hfin] at hfull
              exact absurd hfull (by simp)
            · rw [if_neg hfin] at hfull
              have hcon : c2 + n = data.length :=
                (Prod.mk.injEq .. ▸ Option.some.inj hfull).2
              rw [hlen, if_pos (by omega)]

/-! Lemmas about the HTTP/3 frame loop. -/

/-- When the buffer starts with a Close frame, the inner parse loop
replies with one empty Close frame, executes break, and leaves the
bytes after the Close frame in the buffer. -/
theorem h3Inner_close (buf : List Nat) (f : WebSocketFrame) (c : Nat)
    (hp : WebSocketFrame.parse buf = some (f, c)) (hop : f.opcode = .close) :
    h3InnerLoop buf.length buf = (buf.drop c, [(.close, [])], [], true) := by
  have h2 := parse_some_len hp
  obtain ⟨m, hm⟩ : ∃ m, buf.length = m + 1 := ⟨buf.length - 1, by omega⟩
  rw [hm]
  unfold h3InnerLoop
  rw [hp]
  dsimp only
  rw [show h3FrameAction f = ([(.close, [])], [], true) from by
        unfold h3FrameAction; rw [hop]]
  rfl

/-- After the Close reply, the outer receive loop continues: with a
further chunk available, the run of the loop equals the Close reply
followed by the run on the remaining chunks with the unconsumed bytes
still buffered. -/
theorem h3Outer_close (buf chunk : List Nat) (rest : List (List Nat))
    (f : WebSocketFrame) (c : Nat)
    (hp : WebSocketFrame.parse buf = some (f, c))
    (hop : f.opcode = .close) :
    h3OuterLoop (buf :: chunk :: rest) [] =
      ([(.close, [])] ++ (h3OuterLoop (chunk :: rest) (buf.drop c)).1,
       (h3OuterLoop (chunk :: rest) (buf.drop c)).2) := by
  rw [show h3OuterLoop (buf :: chunk :: rest) [] =
        (let b := [] ++ buf
         let r := h3InnerLoop b.length b
         let r2 := h3OuterLoop (chunk :: rest) r.1
         (r.2.1 ++ r2.1, r.2.2.1 ++ r2.2)) from rfl]
  dsimp only
  simp only [List.nil_append]
  rw [h3Inner_close buf f c hp hop]
  dsimp only
  simp only [List.nil_append]

/-! Lemmas about the session registry model. -/

theorem lookupClient_modify (l : List (ClientId × ClientConnection))
    (id : ClientId) (f : ClientConnection → ClientConnection) :
    lookupClient (modifyClient l id f) id = (lookupClient l id).map f := by
  induction l with
  | nil => rfl
  | cons p rest ih =>
    obtain ⟨k, v⟩ := p
    by_cases hk : k = id
    · subst hk
      show lookupClient ((if k = k then (k, f v) else (k, v)) ::
          List.map (fun p => if p.1 = k then (p.1, f p.2) else p) rest) k =
        Option.map f (lookupClient ((k, v) :: rest) k)
      rw [if_pos rfl]
      simp [lookupClient]
    · simp only [modifyClient, List.map_cons]
      rw [show (if (k, v).1 = id then ((k, v).1, f (k, v).2) else (k, v)) =
            (k, v) from by rw [if_neg hk]]
      unfold lookupClient
      rw [if_neg hk, if_neg hk]
      exact ih

theorem insertClient_fresh (l : List (ClientId × ClientConnection))
    (id : ClientId) (c : ClientConnection)
    (h : lookupClient l id = none) :
    insertClient l id c = l ++ [(id, c)] := by
  induction l with
  | nil => rfl
  | cons p rest ih =>
    obtain ⟨k, v⟩ := p
    unfold lookupClient at h
    by_cases hk : k = id
    · rw [if_pos hk] at h
      exact absurd h (by simp)
    · rw [if_neg hk] at h
      unfold insertClient
      rw [if_neg hk, ih h]
      rfl

theorem lookupClient_append_none {l1 : List (ClientId × ClientConnection)}
    (l2 : List (ClientId × ClientConnection)) {j : ClientId}
    (h : lookupClient l1 j = none) :
    lookupClient (l1 ++ l2) j = lookupClient l2 j := by
  induction l1 with
  | nil => rfl
  | cons p rest ih =>
    obtain ⟨k, v⟩ := p
    rw [List.cons_append]
    simp only [lookupClient] at h ⊢
    by_cases hk : k = j
    · rw [if_pos hk] at h
      exact absurd h (by simp)
    · rw [if_neg hk] at h ⊢
      exact ih h

/-- Admitting a list of fresh, pairwise distinct ids within the limit
succeeds and appends one fresh Connecting record per id. -/
theorem admitAll_spec (now : Nat) : ∀ (ids : List ClientId)
    (m : ClientManager), ids.Nodup →
    (∀ i ∈ ids, lookupClient m.clients i = none) →
    m.clients.length + ids.length ≤ m.maxClients →
    admitAll now ids m = some
      { clients := m.clients ++
          ids.map (fun i => (i, ClientConnection.new i now)),
        maxClients := m.maxClients } := by
  intro ids
  induction ids with
  | nil =>
    intro m _ _ _
    simp [admitAll]
  | cons i rest ih =>
    intro m hnd hfresh hlen
    have hlt : ¬ m.maxClients ≤ m.clients.length := by
      simp only [List.length_cons] at hlen
      omega
    have hadd : m.addClient i now =
        ({ clients := m.clients ++ [(i, ClientConnection.new i now)],
           maxClients := m.maxClients }, true) := by
      unfold ClientManager.addClient
      rw [if_neg hlt, insertClient_fresh m.clients i
            (ClientConnection.new i now) (hfresh i (List.mem_cons_self i rest))]
    unfold admitAll
    rw [hadd]
    dsimp only
    have hnd2 := hnd
    rw [List.nodup_cons] at hnd2
    have hih := ih { clients := m.clients ++ [(i, ClientConnection.new i now)],
                     maxClients := m.maxClients }
      hnd2.2
      (by
        intro j hj
        have hne : j ≠ i := fun he => hnd2.1 (he ▸ hj)
        have h1 := hfresh j (List.mem_cons_of_mem i hj)
        rw [lookupClient_append_none _ h1]
        simp only [lookupClient]
        rw [if_neg (fun he => hne he.symm)])
      (by
        simp only [List.length_append, List.length_cons, List.length_nil]
          at hlen ⊢
        omega)
    rw [hih]
    simp [List.append_assoc]

/-- Folding the broadcast loop body over the client list counts exactly
the Connected clients with a successful send and records an attempted
send for every Connected client, in order. -/
theorem broadcast_fold (ok : ClientId → Bool) (fr : MessageFrame) :
    ∀ (cl : List (ClientId × ClientConnection))
      (acc : Nat × List (ClientId × MessageFrame)),
      cl.foldl (broadcastStep ok fr) acc =
        (acc.1 + (cl.filter (fun p => decide (p.2.state = .connected) &&
            ok p.1)).length,
         acc.2 ++ (cl.filter (fun p =>
            decide (p.2.state = .connected))).map (fun p => (p.1, fr))) := by
  intro cl
  induction cl with
  | nil => intro acc; simp
  | cons p rest ih =>
    intro acc
    rw [List.foldl_cons, ih]
    unfold broadcastStep
    by_cases h1 : p.2.state = .connected
    · by_cases h2 : ok p.1 = true
      · rw [if_pos h1, if_pos h2]
        simp only [List.filter_cons, h1, h2, decide_eq_true_eq,
          decide_True, Bool.true_and, if_pos, List.length_cons,
          List.map_cons, List.append_assoc, List.cons_append,
          List.nil_append]
        congr 1
        omega
      · rw [if_pos h1, if_neg h2]
        have h2f : ok p.1 = false := by
          cases hok : ok p.1
          · rfl
          · exact absurd hok h2
        simp [List.filter_cons, h1, h2f]
    · rw [if_neg h1]
      have h1f : decide (p.2.state = ClientState.connected) = false := by
        simp [h1]
      simp [List.filter_cons, h1f]

/-- C4 counterexample: one received chunk buffers a Close frame followed
by a Ping frame; the dispatcher answers the Close with an empty Close,
and when the next chunk arrives it still processes the buffered Ping,
answering with a Pong; the session is removed only at end of stream. -/
theorem c4_counterexample :
    h3Handle [7] 7 [[0x88, 0x00, 0x89, 0x01, 0x41], [0x8A, 0x00]] =
      (([(.close, []), (.pong, [0x41])], []), []) := by decide

/-- C4 (amended): when a parsed frame has opcode Close, the server
replies with one empty Close frame and exits only the inner parse loop,
leaving the unconsumed bytes buffered; the outer receive loop continues
with the next chunk, processing the frames that followed the Close; the
session is removed from the registry only when the receive loop itself
exits (end of stream or error), not upon the Close. -/
theorem c4_close_amended (buf : List Nat) (f : WebSocketFrame) (c : Nat)
    (hp : WebSocketFrame.parse buf = some (f, c))
    (hop : f.opcode = .close) :
    h3InnerLoop buf.length buf = (buf.drop c, [(.close, [])], [], true) ∧
    ∀ (chunk : List Nat) (rest : List (List Nat)),
      h3OuterLoop (buf :: chunk :: rest) [] =
        ([(.close, [])] ++ (h3OuterLoop (chunk :: rest) (buf.drop c)).1,
         (h3OuterLoop (chunk :: rest) (buf.drop c)).2) :=
  ⟨h3Inner_close buf f c hp hop,
   fun chunk rest => h3Outer_close buf chunk rest f c hp hop⟩

theorem c4_witness :
    h3InnerLoop ([0x88, 0x00] : List Nat).length [0x88, 0x00] =
      (([0x88, 0x00] : List Nat).drop 2, [(.close, [])], [], true) :=
  (c4_close_amended [0x88, 0x00] ⟨true, .close, false, []⟩ 2
    (by decide) rfl).1

/-- C5 counterexample: for the frame with fin set, opcode Text, mask set
and payload the single byte 65, the encoder emits three bytes with
byte 1 equal to 1: the mask bit is not set in byte 1 (the claim requires
129) and no 4-byte key is appended (the claim requires length 7). -/
theorem c5_counterexample :
    WebSocketFrame.toBytes
      { fin := true, opcode := .text, mask := true, payload := [65] } =
      [129, 1, 65] ∧
    ¬ (WebSocketFrame.toBytes
        { fin := true, opcode := .text, mask := true,
          payload := [65] }).getD 1 0 = 128 + 1 ∧
    ¬ (WebSocketFrame.toBytes
        { fin := true, opcode := .text, mask := true,
          payload := [65] }).length = 7 := by decide

/-- C5 (amended): the encoder emits byte 0 equal to fin shifted left 7
ORed with the opcode, and byte 1 equal to the 7-bit length field alone:
the mask field is ignored, the mask bit of byte 1 is never set, no
masking key is appended (the output is exactly 2 bytes plus the extended
length bytes plus the payload), and the payload bytes follow unmasked. -/
theorem c5_encoder_amended (f : WebSocketFrame) :
    f.toBytes.getD 0 0 = (if f.fin then 128 else 0) + f.opcode.toByte ∧
    f.toBytes.getD 1 0 = shortLenOf f.payload.length ∧
    f.toBytes.getD 1 0 < 128 ∧
    f.toBytes.length =
      2 + (extLenBytesOf f.payload.length).length + f.payload.length ∧
    f.toBytes.drop ((extLenBytesOf f.payload.length).length + 2) =
      f.payload ∧
    (extLenBytesOf f.payload.length).length =
      (if f.payload.length < 126 then 0
       else if f.payload.length < 65536 then 2 else 8) := by
  refine ⟨?_, ?_, ?_, ?_, ?_, ?_⟩
  · unfold WebSocketFrame.toBytes
    rw [List.cons_append, List.cons_append, getD_cons0, lor_finBit]
  · unfold WebSocketFrame.toBytes
    rw [List.cons_append, List.cons_append, getD_cons1]
  · unfold WebSocketFrame.toBytes
    rw [List.cons_append, List.cons_append, getD_cons1]
    exact shortLenOf_lt _
  · unfold WebSocketFrame.toBytes
    simp only [List.length_append, List.length_cons]
    omega
  · unfold WebSocketFrame.toBytes
    rw [List.cons_append, List.cons_append]
    show List.drop (extLenBytesOf f.payload.length).length
      (extLenBytesOf f.payload.length ++ f.payload) = f.payload
    exact List.drop_left _ _
  · unfold extLenBytesOf
    split_ifs <;> rfl

/-- C6: every strict prefix of a WebSocket frame encoding parses to the
need-more-data result (none), both for the masked client wire form and
for the server encoder output; and parsing the complete masked encoding
returns the frame with the payload unmasked (each byte XORed with the
key at index i mod 4) and consumes exactly the whole buffer. -/
theorem c6_decoder_contract (fin : Bool) (op : WebSocketOpcode)
    (key payload : List Nat) (hkey : key.length = 4)
    (hn : payload.length < 2 ^ 64) :
    (∀ k, k < (wireEncodeMasked fin op key payload).length →
      WebSocketFrame.parse ((wireEncodeMasked fin op key payload).take k) =
        none) ∧
    WebSocketFrame.parse (wireEncodeMasked fin op key payload) =
      some ({ fin := fin, opcode := op, mask := true, payload := payload },
            (wireEncodeMasked fin op key payload).length) ∧
    (∀ (g : WebSocketFrame), g.payload.length < 2 ^ 64 →
      ∀ k, k < g.toBytes.length →
        WebSocketFrame.parse (g.toBytes.take k) = none) :=
  ⟨fun k hk => parse_take_of_full _ _
      (parse_wireEncodeMasked fin op key payload hkey hn) k hk,
   parse_wireEncodeMasked fin op key payload hkey hn,
   fun g hg k hk => parse_take_of_full _ _ (parse_toBytes g hg) k hk⟩

theorem c6_witness :
    WebSocketFrame.parse
      ((wireEncodeMasked true .text [0x37, 0xfa, 0x21, 0x3d]
        [0x48, 0x65, 0x6c, 0x6c, 0x6f]).take 3) = none ∧
    WebSocketFrame.parse
      (wireEncodeMasked true .text [0x37, 0xfa, 0x21, 0x3d]
        [0x48, 0x65, 0x6c, 0x6c, 0x6f]) =
      some ({ fin := true, opcode := .text, mask := true,
              payload := [0x48, 0x65, 0x6c, 0x6c, 0x6f] },
            (wireEncodeMasked true .text [0x37, 0xfa, 0x21, 0x3d]
              [0x48, 0x65, 0x6c, 0x6c, 0x6f]).length) := by
  have h := c6_decoder_contract true .text [0x37, 0xfa, 0x21, 0x3d]
    [0x48, 0x65, 0x6c, 0x6c, 0x6f] (by decide) (by decide)
  exact ⟨h.1 3 (by decide), h.2.1⟩

/-- C10: the opcode decoder is total: it depends only on the low nibble
of its input byte; every value whose low nibble is outside the set 0, 1,
2, 8, 9, 10 decodes to Close, and the HTTP/3 dispatcher then handles
such a frame exactly as a Close frame (empty Close reply and break);
a well-formed frame carrying a reserved opcode (first byte 0x83) parses
successfully rather than being rejected. -/
theorem c10_opcode_total (v : Nat) :
    WebSocketOpcode.fromByte v = WebSocketOpcode.fromByte (v % 16) ∧
    (v % 16 ≠ 0 → v % 16 ≠ 1 → v % 16 ≠ 2 → v % 16 ≠ 8 → v % 16 ≠ 9 →
      v % 16 ≠ 10 →
      WebSocketOpcode.fromByte v = .close ∧
      ∀ (fin mask : Bool) (payload : List Nat),
        h3FrameAction { fin := fin, opcode := WebSocketOpcode.fromByte v,
                        mask := mask, payload := payload } =
          ([(.close, [])], [], true)) ∧
    WebSocketFrame.parse [0x83, 0x00] =
      some ({ fin := true, opcode := .close, mask := false, payload := [] },
            2) := by
  have hmod : v % 16 < 16 := Nat.mod_lt _ (by norm_num)
  have h1 : WebSocketOpcode.fromByte v =
      WebSocketOpcode.fromByte (v % 16) := by
    unfold WebSocketOpcode.fromByte
    rw [land_15_eq, land_15_eq, Nat.mod_mod_of_dvd v (dvd_refl 16)]
  have hfin : ∀ r : Fin 16, r.val = 0 ∨ r.val = 1 ∨ r.val = 2 ∨
      r.val = 8 ∨ r.val = 9 ∨ r.val = 10 ∨
      WebSocketOpcode.fromByte r.val = .close := by decide
  refine ⟨h1, fun n0 n1 n2 n8 n9 n10 => ?_, by decide⟩
  have hc : WebSocketOpcode.fromByte v = .close := by
    rcases hfin ⟨v % 16, hmod⟩ with h | h | h | h | h | h | h
    · exact absurd h n0
    · exact absurd h n1
    · exact absurd h n2
    · exact absurd h n8
    · exact absurd h n9
    · exact absurd h n10
    · rw [h1]
      exact h
  refine ⟨hc, fun fin mask payload => ?_⟩
  unfold h3FrameAction
  rw [show ({ fin := fin, opcode := WebSocketOpcode.fromByte v,
              mask := mask, payload := payload } :
      WebSocketFrame).opcode = WebSocketOpcode.close from hc]

theorem c10_witness :
    WebSocketOpcode.fromByte 3 = .close ∧
    h3FrameAction { fin := true, opcode := WebSocketOpcode.fromByte 3,
                    mask := false, payload := [5] } =
      ([(.close, [])], [], true) := by
  have h := (c10_opcode_total 3).2.1 (by decide) (by decide) (by decide)
    (by decide) (by decide) (by decide)
  exact ⟨h.1, h.2 true false [5]⟩

/-- C1 counterexample: a registry holding session 1 in state Connecting;
dispatching a Ping (not a Handshake) produces a Pong reply to the
client, and dispatching a Close removes the session from the registry:
the message is neither only-logged nor ignored. -/
theorem c1_counterexample :
    lookupClient [(1, ⟨1, none, .connecting, 10, 10, 0, []⟩)] 1 =
      some ⟨1, none, .connecting, 10, 10, 0, []⟩ ∧
    (handleMessage (fun _ => true) "srv" 20
        ⟨[(1, ⟨1, none, .connecting, 10, 10, 0, []⟩)], 8⟩ 1
        (MessageFrame.new (.ping 5))).sends ≠ [] ∧
    (handleMessage (fun _ => true) "srv" 20
        ⟨[(1, ⟨1, none, .connecting, 10, 10, 0, []⟩)], 8⟩ 1
        (MessageFrame.new (.close 1000 "bye"))).manager.clients = [] := by
  refine ⟨by decide, by decide, by decide⟩

/-- C1 (amended): the dispatcher never examines the session state, so a
session in state Connecting has every message dispatched by type exactly
as a Connected one: a Ping is answered with a Pong (send_to checks only
presence, not state), a Text is answered with its echo, and a Close
evicts the session; no non-Handshake handler writes the state or name
fields, so apart from Close the session record is unchanged and remains
Connecting. -/
theorem c1_connecting_dispatch (ok : ClientId → Bool) (sn : String)
    (now : Nat) (m : ClientManager) (id : ClientId) (c : ClientConnection)
    (h : lookupClient m.clients id = some c)
    (_hst : c.state = .connecting) :
    (∀ ts, handleMessage ok sn now m id (MessageFrame.new (.ping ts)) =
      { manager := m, sends := [(id, MessageFrame.new (.pong now))],
        bus := [] }) ∧
    (∀ s ts, handleMessage ok sn now m id (MessageFrame.new (.text s ts)) =
      { manager := m,
        sends := [(id, MessageFrame.new (.text ("Echo: " ++ s) now))],
        bus := [] }) ∧
    (∀ code reason,
      handleMessage ok sn now m id (MessageFrame.new (.close code reason)) =
        { manager := m.removeClient id, sends := [], bus := [] }) := by
  refine ⟨fun ts => ?_, fun s ts => ?_, fun code reason => ?_⟩
  · show handlePing now m id = _
    unfold handlePing ClientManager.sendToClient
    rw [h]
  · show handleTextMessage now m id s = _
    unfold handleTextMessage ClientManager.sendToClient
    rw [h]
  · show handleClose m id = _
    rfl

theorem c1_witness :
    handleMessage (fun _ => true) "srv" 20
      ⟨[(1, ⟨1, none, .connecting, 10, 10, 0, []⟩)], 8⟩ 1
      (MessageFrame.new (.ping 5)) =
    ⟨⟨[(1, ⟨1, none, .connecting, 10, 10, 0, []⟩)], 8⟩,
     [(1, MessageFrame.new (.pong 20))], []⟩ :=
  (c1_connecting_dispatch (fun _ => true) "srv" 20 _ 1
    ⟨1, none, .connecting, 10, 10, 0, []⟩ (by decide) rfl).1 5

/-- C2: evaluating handle_message at a registry holding client 1 with
last_seen 100 and message_count 0, dispatching a Ping at time 200, the
registry afterwards still stores last_seen 100 and message_count 0: the
update_last_seen and increment_message_count calls mutate the clone
returned by get_client and are lost, contradicting the claim that the
stored record is updated. -/
theorem c2_registry_not_updated :
    (handleMessage (fun _ => true) "srv" 200
        ⟨[(1, ⟨1, none, .connected, 100, 100, 0, []⟩)], 8⟩ 1
        (MessageFrame.new (.ping 150))).manager =
      ⟨[(1, ⟨1, none, .connected, 100, 100, 0, []⟩)], 8⟩ ∧
    (lookupClient (handleMessage (fun _ => true) "srv" 200
        ⟨[(1, ⟨1, none, .connected, 100, 100, 0, []⟩)], 8⟩ 1
        (MessageFrame.new (.ping 150))).manager.clients 1).map
      (fun c => (c.lastSeen, c.messageCount)) = some (100, 0) := by
  refine ⟨by decide, by decide⟩

/-- C3 counterexample: a registry holding session 1 in state Connecting
(not Connected); send_to delivers the frame anyway, refuting the claim
that a send happens only if the stored state is Connected. -/
theorem c3_counterexample :
    lookupClient [(1, ⟨1, none, .connecting, 0, 0, 0, []⟩)] 1 =
      some ⟨1, none, .connecting, 0, 0, 0, []⟩ ∧
    (⟨1, none, .connecting, 0, 0, 0, []⟩ : ClientConnection).state ≠
      .connected ∧
    ClientManager.sendToClient
      ⟨[(1, ⟨1, none, .connecting, 0, 0, 0, []⟩)], 8⟩ 1
      (MessageFrame.new (.text "hi" 0)) =
      [(1, MessageFrame.new (.text "hi" 0))] := by
  refine ⟨by decide, by decide, by decide⟩

/-- C3 (amended): send_to sends the frame on the stored connection if
and only if the id is present in the registry, regardless of the stored
state (the Connected check of the claim does not exist in the code);
an absent id is only logged and the call still succeeds; and changing
the stored state of the session never changes what send_to does. -/
theorem c3_send_to_amended (m : ClientManager) (id : ClientId)
    (fr : MessageFrame) :
    ((m.getClient id).isSome → m.sendToClient id fr = [(id, fr)]) ∧
    ((m.getClient id).isNone → m.sendToClient id fr = []) ∧
    (∀ (st : ClientState) (now : Nat),
      (m.updateClientState id st now).sendToClient id fr =
        m.sendToClient id fr) := by
  refine ⟨?_, ?_, ?_⟩
  · intro h
    unfold ClientManager.sendToClient
    unfold ClientManager.getClient at h
    cases hl : lookupClient m.clients id with
    | none => rw [hl] at h; exact absurd h (by simp)
    | some c => rfl
  · intro h
    unfold ClientManager.sendToClient
    unfold ClientManager.getClient at h
    cases hl : lookupClient m.clients id with
    | none => rfl
    | some c => rw [hl] at h; exact absurd h (by simp)
  · intro st now
    unfold ClientManager.sendToClient ClientManager.updateClientState
    dsimp only
    rw [lookupClient_modify]
    cases hl : lookupClient m.clients id with
    | none => rfl
    | some c => rfl

theorem c3_witness :
    ClientManager.sendToClient
      ⟨[(2, ⟨2, none, .connecting, 0, 0, 0, []⟩)], 4⟩ 2
      (MessageFrame.new (.pong 1)) =
      [(2, MessageFrame.new (.pong 1))] :=
  (c3_send_to_amended _ 2 _).1 (by decide)

/-- C7: add_client returns false and leaves the registry untouched
whenever the stored count has reached max_clients, in which case the
connection handler closes the connection with code 1008 and reason
Server full before any stream is processed; and after admitting any
list of distinct fresh ids with max_clients equal to its length, the
next admission returns false with the registry unchanged. -/
theorem c7_admission :
    (∀ (m : ClientManager) (id : ClientId) (now : Nat),
      m.maxClients ≤ m.clients.length →
      m.addClient id now = (m, false) ∧
      handleConnectionAdmission m id now =
        (m, some (1008, "Server full"))) ∧
    (∀ (ids : List ClientId) (now id2 : Nat), ids.Nodup →
      ∃ mN, admitAll now ids (ClientManager.empty ids.length) = some mN ∧
        mN.clients.length = ids.length ∧
        mN.addClient id2 now = (mN, false) ∧
        handleConnectionAdmission mN id2 now =
          (mN, some (1008, "Server full"))) := by
  have hfull : ∀ (m : ClientManager) (id : ClientId) (now : Nat),
      m.maxClients ≤ m.clients.length →
      m.addClient id now = (m, false) ∧
      handleConnectionAdmission m id now =
        (m, some (1008, "Server full")) := by
    intro m id now h
    have hadd : m.addClient id now = (m, false) := by
      unfold ClientManager.addClient
      rw [if_pos h]
    refine ⟨hadd, ?_⟩
    unfold handleConnectionAdmission
    rw [hadd]
    rfl
  refine ⟨hfull, ?_⟩
  intro ids now id2 hnd
  have hA := admitAll_spec now ids (ClientManager.empty ids.length) hnd
    (fun i _ => rfl) (by simp [ClientManager.empty])
  refine ⟨_, hA, ?_, ?_⟩
  · simp [ClientManager.empty]
  · exact hfull _ id2 now (by simp [ClientManager.empty])

theorem c7_witness :
    ClientManager.addClient ⟨[(1, ClientConnection.new 1 0)], 1⟩ 5 0 =
      (⟨[(1, ClientConnection.new 1 0)], 1⟩, false) ∧
    handleConnectionAdmission ⟨[(1, ClientConnection.new 1 0)], 1⟩ 5 0 =
      (⟨[(1, ClientConnection.new 1 0)], 1⟩, some (1008, "Server full")) :=
  c7_admission.1 _ 5 0 (by decide)

/-- C8: for a Handshake dispatched from a registered session, the reply
is one HandshakeResponse with accepted equal to the comparison of the
offered version with 1.0 and, on mismatch, the reason string built from
the offered version; exactly when accepted, the stored record gets the
provided name (keeping the old one when none is provided) and state
Connected; on mismatch the registry is unchanged. -/
theorem c8_handshake (sn : String) (now : Nat) (m : ClientManager)
    (id : ClientId) (c : ClientConnection) (ok : ClientId → Bool)
    (h : lookupClient m.clients id = some c) (nameOpt : Option String)
    (pv : String) :
    (handleMessage ok sn now m id
        (MessageFrame.new (.handshake nameOpt pv))).sends =
      [(id, MessageFrame.new (.handshakeResponse id sn (pv == "1.0")
        (if pv == "1.0" then none
         else some ("Unsupported protocol version: " ++ pv ++
                    ". Expected: 1.0"))))] ∧
    (handleMessage ok sn now m id
        (MessageFrame.new (.handshake nameOpt pv))).bus = [] ∧
    (pv = "1.0" →
      lookupClient (handleMessage ok sn now m id
          (MessageFrame.new (.handshake nameOpt pv))).manager.clients id =
        some { c with
               name := (match nameOpt with
                        | some n => some n
                        | none => c.name),
               state := .connected, lastSeen := now }) ∧
    (pv ≠ "1.0" →
      (handleMessage ok sn now m id
        (MessageFrame.new (.handshake nameOpt pv))).manager = m) := by
  have hred : handleMessage ok sn now m id
      (MessageFrame.new (.handshake nameOpt pv)) =
      handleHandshake sn now m id nameOpt pv := rfl
  have hsend : ∀ (fr : MessageFrame),
      ClientManager.sendToClient m id fr = [(id, fr)] := by
    intro fr
    unfold ClientManager.sendToClient
    rw [h]
  by_cases hpv : pv = "1.0"
  · have hb : (pv == "1.0") = true := beq_iff_eq.mpr hpv
    have hH : handleMessage ok sn now m id
        (MessageFrame.new (.handshake nameOpt pv)) =
        { manager := (match nameOpt with
            | some n => m.setClientName id n now
            | none => m).updateClientState id .connected now,
          sends := ClientManager.sendToClient m id (MessageFrame.new
            (.handshakeResponse id sn true none)),
          bus := [] } := by
      rw [hred]
      unfold handleHandshake
      rw [hb]
      rfl
    rw [hH, hsend, hb]
    refine ⟨rfl, rfl, fun _ => ?_, fun hne => absurd hpv hne⟩
    cases nameOpt with
    | none =>
      show lookupClient
        (ClientManager.updateClientState m id .connected now).clients id = _
      unfold ClientManager.updateClientState
      dsimp only
      rw [lookupClient_modify, h]
      rfl
    | some nm =>
      show lookupClient
        ((ClientManager.setClientName m id nm now).updateClientState
          id .connected now).clients id = _
      unfold ClientManager.updateClientState ClientManager.setClientName
      dsimp only
      rw [lookupClient_modify, lookupClient_modify, h]
      rfl
  · have hb : (pv == "1.0") = false := by
      cases hbe : pv == "1.0"
      · rfl
      · exact absurd (beq_iff_eq.mp hbe) hpv
    have hH : handleMessage ok sn now m id
        (MessageFrame.new (.handshake nameOpt pv)) =
        { manager := m,
          sends := ClientManager.sendToClient m id (MessageFrame.new
            (.handshakeResponse id sn false
              (some ("Unsupported protocol version: " ++ pv ++
                     ". Expected: 1.0")))),
          bus := [] } := by
      rw [hred]
      unfold handleHandshake
      rw [hb]
      rfl
    rw [hH, hsend, hb]
    exact ⟨rfl, rfl, fun he => absurd he hpv, fun _ => rfl⟩

theorem c8_witness :
    lookupClient (handleMessage (fun _ => true) "srv" 7
        ⟨[(1, ⟨1, none, .connecting, 0, 0, 0, []⟩)], 4⟩ 1
        (MessageFrame.new
          (.handshake (some "Alice") "1.0"))).manager.clients 1 =
      some ⟨1, some "Alice", .connected, 0, 7, 0, []⟩ :=
  (c8_handshake "srv" 7 _ 1 ⟨1, none, .connecting, 0, 0, 0, []⟩
    (fun _ => true) (by decide) (some "Alice") "1.0").2.2.1 rfl

/-- C9: broadcast attempts a send to exactly the registered sessions
whose state is Connected, in registry order, regardless of per-session
I/O outcomes (a failed send does not stop the iteration); the returned
count is the number of successful sends among them; and the frame is
published exactly once to the broadcast channel whatever the per-session
outcomes. -/
theorem c9_broadcast (m : ClientManager) (ok : ClientId → Bool)
    (fr : MessageFrame) :
    (m.broadcastMessage ok fr).2.1 =
      (m.clients.filter (fun p => decide (p.2.state = .connected))).map
        (fun p => (p.1, fr)) ∧
    (m.broadcastMessage ok fr).1 =
      (m.clients.filter (fun p => decide (p.2.state = .connected) &&
        ok p.1)).length ∧
    (m.broadcastMessage ok fr).2.2 = [fr] := by
  unfold ClientManager.broadcastMessage
  dsimp only
  rw [broadcast_fold]
  exact ⟨by simp, by simp, rfl⟩

end QuicWS
